import Mathlib

/-
  Verification development for the polydictions repository.

  Background namespace: shallow embedding of the background service worker
  (the unnamed background script): the dedup cycle checkNewEvents, the
  install/startup/alarm handlers, and the fetch URL used by the cycle.

  Popup namespace: shallow embedding of the watchlist logic of popup.js:
  toggleWatchlist, clearWatchlist, syncWatchlistToBot, syncAndUpdateWatchlist,
  with localStorage modelled as explicit state and the remote bot API
  modelled by its observed result (an Option value for the pull, a list of
  attempted calls for the push).
-/

namespace Polydictions

namespace Background

/-- An event record of the market feed; the dedup cycle only inspects the id
field, the title stands for the remaining payload. -/
structure Event where
  id : String
  title : String
deriving DecidableEq

/-- A chrome notification payload as built in checkNewEvents. -/
structure Notification where
  ntype : String
  iconUrl : String
  title : String
  message : String
  priority : Nat
deriving DecidableEq

/-- The notification created for a batch of k novel events, translated from the
object literal passed to chrome.notifications.create: the message mentions the
count only, never an event title. -/
def mkNotification (k : Nat) : Notification :=
  { ntype := "basic"
    iconUrl := "icons/icon128.png"
    title := "New Polymarket Event"
    message := toString k ++ " new event(s) available!"
    priority := 1 }

/-- The for loop of checkNewEvents: walk the fetched batch from its front,
collecting events until one whose id equals the stored lastEventId is met
(exclusive), or the batch ends. -/
def collectNew (lastEventId : String) : List Event → List Event
  | [] => []
  | e :: rest =>
    if e.id = lastEventId then [] else e :: collectNew lastEventId rest

/-- The body of checkNewEvents. The first argument is the outcome of the
fetch together with the json parse: an error value models a thrown network or
parse exception, which the try/catch of the source swallows after logging.
The second argument is the stored lastEventId (absent on first run).
The result is the stored lastEventId after the cycle together with the list
of notifications the cycle created. The function is total: no branch
propagates an exception to the caller. -/
def checkNewEvents (fetched : Except String (List Event)) (lastEventId : Option String) :
    Option String × List Notification :=
  match fetched with
  | Except.error _ => (lastEventId, [])
  | Except.ok events =>
    match lastEventId with
    | none =>
      match events with
      | [] => (none, [])
      | e :: _ => (some e.id, [])
    | some m =>
      match collectNew m events with
      | [] => (some m, [])
      | e :: rest => (some e.id, [mkNotification (e :: rest).length])

/-- The URL string the dedup cycle fetches, copied from the source. -/
def checkNewEventsFetchUrl : String :=
  "https://gamma-api.polymarket.com/events?limit=10&active=true"

/-- Split a character list at every occurrence of the separator c; the second
argument accumulates the current field in reverse. -/
def splitListOn (c : Char) : List Char → List Char → List (List Char)
  | [], acc => [acc.reverse]
  | x :: xs, acc =>
    if x = c then acc.reverse :: splitListOn c xs [] else splitListOn c xs (x :: acc)

/-- The list of query parameters of a URL: the part after the single question
mark, split at ampersands. -/
def urlQueryParams (url : String) : List String :=
  match splitListOn '?' url.data [] with
  | [_, query] => (splitListOn '&' query []).map String.mk
  | _ => []

/-- The observable actions of the background script handlers. -/
inductive BgAction where
  | log (msg : String)
  | createAlarm (name : String) (periodInMinutes : Nat)
  | invokeCheckNewEvents
deriving DecidableEq

/-- The actions performed by the chrome.runtime.onInstalled listener. -/
def onInstalledHandler : List BgAction :=
  [BgAction.log "polydictions extension installed",
   BgAction.createAlarm "checkNewEvents" 5]

/-- The actions performed by the chrome.runtime.onStartup listener. -/
def onStartupHandler : List BgAction :=
  [BgAction.log "polydictions extension started"]

/-- A fired chrome alarm, carrying its name. -/
structure Alarm where
  name : String

/-- The actions performed by the chrome.alarms.onAlarm listener for a fired
alarm; the none case models a missing alarm argument, guarded in the source. -/
def onAlarmHandler (alarm : Option Alarm) : List BgAction :=
  match alarm with
  | some a => if a.name = "checkNewEvents" then [BgAction.invokeCheckNewEvents] else []
  | none => []

/-- The batch of the dedup example of the spec, most recent first. -/
def exampleBatch : List Event :=
  [⟨"E9", "t9"⟩, ⟨"E8", "t8"⟩, ⟨"E7", "t7"⟩, ⟨"E6", "t6"⟩, ⟨"E5", "t5"⟩, ⟨"E4", "t4"⟩]

/-- A batch of seven events none of which matches the marker E0. -/
def exampleBatchSeven : List Event :=
  [⟨"E7", "t7"⟩, ⟨"E6", "t6"⟩, ⟨"E5", "t5"⟩, ⟨"E4", "t4"⟩,
   ⟨"E3", "t3"⟩, ⟨"E2", "t2"⟩, ⟨"E1", "t1"⟩]

end Background

namespace Popup

/-- First-occurrence deduplication, the semantics of the spread of a js Set
built from a list: keep an element iff it was not seen before. -/
def jsSetDedup : List String → List String → List String
  | _, [] => []
  | seen, x :: rest =>
    if x ∈ seen then jsSetDedup seen rest else x :: jsSetDedup (x :: seen) rest

/-- The watchlist part of localStorage: the watchlist key (a json array of
slugs) and the watchlistEvents key (a json object mapping slugs to event
snapshots), the object modelled as an association list in key order. -/
structure WatchState (α : Type) where
  watchlist : List String
  events : List (String × α)
deriving DecidableEq

/-- Reading a key of a js object: the value at the first matching key. -/
def mapLookup {α : Type} (k : String) : List (String × α) → Option α
  | [] => none
  | (k2, v) :: rest => if k = k2 then some v else mapLookup k rest

/-- The delete operator on a js object: remove the entries at the key. -/
def mapErase {α : Type} (k : String) : List (String × α) → List (String × α)
  | [] => []
  | (k2, v) :: rest =>
    if k2 = k then mapErase k rest else (k2, v) :: mapErase k rest

/-- Assignment to a key of a js object: overwrite in place when the key
exists, append otherwise. -/
def mapInsert {α : Type} (k : String) (v : α) : List (String × α) → List (String × α)
  | [] => [(k, v)]
  | (k2, v2) :: rest =>
    if k2 = k then (k, v) :: rest else (k2, v2) :: mapInsert k v rest

/-- The filter of toggleWatchlist removing a slug from the watchlist array. -/
def removeAll (x : String) : List String → List String
  | [] => []
  | y :: rest => if y = x then removeAll x rest else y :: removeAll x rest

/-- A call attempted against the remote watchlist bot API. -/
inductive RemoteCall where
  | post (userId : String) (slugs : List String)
deriving DecidableEq

/-- syncWatchlistToBot: with no stored telegramUserId it returns at once and
attempts no call; otherwise it posts the full slug list. A failing post is
caught and logged in the source, so the local outcome never depends on the
result of the call. -/
def syncWatchlistToBot (userId : Option String) (watchlist : List String) :
    List RemoteCall :=
  match userId with
  | none => []
  | some u => [RemoteCall.post u watchlist]

/-- toggleWatchlist slug event: flip membership of the slug in the watchlist
array, delete or assign the snapshot entry accordingly, persist both, then
attempt to push the entire resulting list to the bot API. Returns the new
local state and the attempted remote calls. -/
def toggleWatchlist {α : Type} (userId : Option String) (slug : String) (event : α)
    (s : WatchState α) : WatchState α × List RemoteCall :=
  if slug ∈ s.watchlist then
    let wl := removeAll slug s.watchlist
    (⟨wl, mapErase slug s.events⟩, syncWatchlistToBot userId wl)
  else
    let wl := s.watchlist ++ [slug]
    (⟨wl, mapInsert slug event s.events⟩, syncWatchlistToBot userId wl)

/-- clearWatchlist: persist an empty array and an empty object, then push the
empty list to the bot API. The updateWatchlistUI call inside the source
function persists nothing here: the freshly emptied watchlist takes the
empty-state branch, which only swaps css classes. -/
def clearWatchlist (α : Type) (userId : Option String) :
    WatchState α × List RemoteCall :=
  (⟨[], []⟩, syncWatchlistToBot userId [])

/-- The backfill loop of syncAndUpdateWatchlist: for every slug of the remote
list lacking a snapshot entry, look the event up in the freshly fetched
allEvents batch (modelled as an association list from slug to event) and
assign it when found. -/
def backfill {α : Type} (allEvents : List (String × α)) :
    List String → List (String × α) → List (String × α)
  | [], ev => ev
  | slug :: rest, ev =>
    match mapLookup slug ev with
    | some _ => backfill allEvents rest ev
    | none =>
      match mapLookup slug allEvents with
      | some e => backfill allEvents rest (mapInsert slug e ev)
      | none => backfill allEvents rest ev

/-- The forEach loop of updateWatchlistUI: for every watched slug that also
occurs in the freshly fetched allEvents batch, overwrite (or add) its
snapshot entry with the fresher record. -/
def refreshSnapshots {α : Type} (allEvents : List (String × α)) :
    List String → List (String × α) → List (String × α)
  | [], ev => ev
  | slug :: rest, ev =>
    match mapLookup slug allEvents with
    | some fresh => refreshSnapshots allEvents rest (mapInsert slug fresh ev)
    | none => refreshSnapshots allEvents rest ev

/-- The state effect of updateWatchlistUI: with an empty watchlist only the
empty placeholder is shown and nothing is persisted; with a non-empty
watchlist the snapshot entries of watched slugs found in allEvents are
refreshed and the resulting object is persisted under watchlistEvents. The
watchlist key is never written here. -/
def updateWatchlistUI {α : Type} (allEvents : List (String × α))
    (s : WatchState α) : WatchState α :=
  if s.watchlist.length = 0 then s
  else ⟨s.watchlist, refreshSnapshots allEvents s.watchlist s.events⟩

/-- syncAndUpdateWatchlist: the remote argument is the outcome of
syncWatchlistFromBot, none when the user id is unset, the call failed, or the
response was unusable. With a non-null non-empty remote list the union merge
runs and the backfill loop fills missing snapshots; otherwise that part of
the state is untouched. Either way the function ends by calling
updateWatchlistUI, whose display refresh may rewrite snapshot entries of
watched slugs. -/
def syncAndUpdateWatchlist {α : Type} (remote : Option (List String))
    (allEvents : List (String × α)) (s : WatchState α) : WatchState α :=
  updateWatchlistUI allEvents
    (match remote with
     | none => s
     | some bot =>
       if 0 < bot.length then
         ⟨jsSetDedup [] (s.watchlist ++ bot), backfill allEvents bot s.events⟩
       else s)

/-- Internal consistency of the local store: every key of the snapshot
mapping is a member of the watchlist array. -/
def WInv {α : Type} (s : WatchState α) : Prop :=
  ∀ p ∈ s.events, p.1 ∈ s.watchlist

instance {α : Type} (s : WatchState α) : Decidable (WInv s) := by
  unfold WInv
  infer_instance

end Popup

end Polydictions

namespace Polydictions

namespace Background

theorem collectNew_initial (m : String) (l : List Event) :
    ∃ t, collectNew m l ++ t = l := by
  induction l with
  | nil => exact ⟨[], rfl⟩
  | cons e rest ih =>
    by_cases h : e.id = m
    · exact ⟨e :: rest, by simp [collectNew, h]⟩
    · obtain ⟨t, ht⟩ := ih
      exact ⟨t, by simp [collectNew, h, ht]⟩

theorem collectNew_not_marker (m : String) (l : List Event) :
    ∀ e ∈ collectNew m l, e.id ≠ m := by
  induction l with
  | nil => simp [collectNew]
  | cons e rest ih =>
    by_cases h : e.id = m
    · simp [collectNew, h]
    · simpa [collectNew, h] using ih

theorem collectNew_drop_head (m : String) (l : List Event) :
    ∀ e, (l.drop (collectNew m l).length).head? = some e → e.id = m := by
  induction l with
  | nil => intro e he; simp [collectNew] at he
  | cons a rest ih =>
    intro e he
    by_cases h : a.id = m
    · simp [collectNew, h] at he
      exact he ▸ h
    · simp only [collectNew, if_neg h, List.length_cons, List.drop_succ_cons] at he
      exact ih e he

theorem collectNew_absent (m : String) (l : List Event) :
    (∀ e ∈ l, e.id ≠ m) → collectNew m l = l := by
  induction l with
  | nil => intro _; rfl
  | cons a rest ih =>
    intro h
    rw [List.forall_mem_cons] at h
    simp [collectNew, h.1, ih h.2]

theorem checkNewEvents_marker_advance (m : String) (l : List Event) :
    collectNew m l ≠ [] →
      (checkNewEvents (Except.ok l) (some m)).1 = l.head?.map Event.id := by
  cases l with
  | nil => intro h; simp [collectNew] at h
  | cons a rest =>
    intro h
    by_cases ha : a.id = m
    · simp [collectNew, ha] at h
    · simp [checkNewEvents, collectNew, ha]

end Background

end Polydictions

namespace Polydictions

namespace Background

/-- Claim C1: for every fetched batch (most recent first) and an existing
last-seen marker m, the novel list computed by checkNewEvents is exactly the
maximal prefix of the batch strictly before the first event whose identifier
equals m: it is a prefix, none of its events carries the marker identifier,
the event of the batch right after it (when any) carries the marker
identifier, and it is the entire batch when the marker identifier does not
occur in the batch; moreover when the novel list is non-empty the persisted
marker becomes the identifier of the most recent (first) event of the
batch. -/
theorem dedup_correctness (l : List Event) (m : String) :
    (∃ t, collectNew m l ++ t = l)
  ∧ (∀ e ∈ collectNew m l, e.id ≠ m)
  ∧ (∀ e, (l.drop (collectNew m l).length).head? = some e → e.id = m)
  ∧ ((∀ e ∈ l, e.id ≠ m) → collectNew m l = l)
  ∧ (collectNew m l ≠ [] →
      (checkNewEvents (Except.ok l) (some m)).1 = l.head?.map Event.id) :=
  ⟨collectNew_initial m l, collectNew_not_marker m l, collectNew_drop_head m l,
   collectNew_absent m l, checkNewEvents_marker_advance m l⟩

/-- Witness for C1 at the example of the spec: marker E5 and batch
[E9, E8, E7, E6, E5, E4] advance the marker to E9. -/
theorem dedup_correctness_witness :
    (checkNewEvents (Except.ok exampleBatch) (some "E5")).1 = some "E9" :=
  (((dedup_correctness exampleBatch "E5").2.2.2.2) (by decide)).trans (by decide)

/-- Claim C3: with no stored marker and a non-empty fetched batch, the cycle
raises no notification and persists the identifier of the first fetched event
as the new marker. -/
theorem first_run_no_notification (l : List Event) (h : l ≠ []) :
    checkNewEvents (Except.ok l) none = (l.head?.map Event.id, []) := by
  cases l with
  | nil => exact absurd rfl h
  | cons a rest => rfl

/-- Witness for C3 at the example batch. -/
theorem first_run_no_notification_witness :
    checkNewEvents (Except.ok exampleBatch) none = (some "E9", []) :=
  (first_run_no_notification exampleBatch (by decide)).trans (by decide)

/-- Claim C4: when the fetch or the payload parse raises, the cycle leaves the
marker unchanged and raises no notification; checkNewEvents is a total
function, so the error never reaches the scheduler. -/
theorem fetch_failure_is_noop (err : String) (marker : Option String) :
    checkNewEvents (Except.error err) marker = (marker, []) := rfl

/-- Claim C6, evaluating the code at the failing input: the URL fetched by the
dedup cycle carries only the limit=10 and active=true query parameters, none
of closed=false, order=createdAt or ascending=false. -/
theorem dedup_fetch_params :
    urlQueryParams checkNewEventsFetchUrl = ["limit=10", "active=true"]
  ∧ "order=createdAt" ∉ urlQueryParams checkNewEventsFetchUrl
  ∧ "ascending=false" ∉ urlQueryParams checkNewEventsFetchUrl
  ∧ "closed=false" ∉ urlQueryParams checkNewEventsFetchUrl := by decide

/-- Counterexample for C7: neither the install handler nor the startup handler
invokes checkNewEvents, so no cycle runs immediately on start or install. -/
theorem scheduler_no_immediate_check :
    BgAction.invokeCheckNewEvents ∉ onInstalledHandler
  ∧ BgAction.invokeCheckNewEvents ∉ onStartupHandler := by decide

/-- Claim C7 as amended: the install handler creates a recurring alarm named
checkNewEvents with a five minute period, the alarm handler invokes
checkNewEvents exactly when that alarm fires, and no handler invokes the cycle
immediately on install or startup. -/
theorem scheduler_alarm_period :
    BgAction.createAlarm "checkNewEvents" 5 ∈ onInstalledHandler
  ∧ onAlarmHandler (some ⟨"checkNewEvents"⟩) = [BgAction.invokeCheckNewEvents]
  ∧ onAlarmHandler none = []
  ∧ BgAction.invokeCheckNewEvents ∉ onStartupHandler := by decide

/-- Claim C8: a cycle whose novel list is non-empty of size k raises exactly
one notification, whose message is determined by the count k alone; and no
cycle, whatever its input, raises more than one notification. -/
theorem notification_aggregation :
    (∀ (l : List Event) (m : String), collectNew m l ≠ [] →
        (checkNewEvents (Except.ok l) (some m)).2
          = [mkNotification (collectNew m l).length])
  ∧ (∀ fetched marker, ((checkNewEvents fetched marker).2).length ≤ 1) := by
  constructor
  · intro l m h
    cases l with
    | nil => exact absurd rfl h
    | cons a rest =>
      by_cases ha : a.id = m
      · simp [collectNew, ha] at h
      · simp [checkNewEvents, collectNew, ha]
  · intro fetched marker
    cases fetched with
    | error e => simp [checkNewEvents]
    | ok events =>
      cases marker with
      | none => cases events <;> simp [checkNewEvents]
      | some m =>
        cases hc : collectNew m events with
        | nil => simp [checkNewEvents, hc]
        | cons e rest => simp [checkNewEvents, hc]

/-- Witness for C8: a batch of seven novel events yields exactly the single
aggregate notification mentioning the count seven. -/
theorem notification_aggregation_witness :
    (checkNewEvents (Except.ok exampleBatchSeven) (some "E0")).2
      = [mkNotification 7] :=
  (notification_aggregation.1 exampleBatchSeven "E0" (by decide)).trans (by decide)

end Background

end Polydictions

namespace Polydictions

namespace Popup

theorem mem_jsSetDedup (x : String) (seen l : List String) :
    x ∈ jsSetDedup seen l ↔ x ∈ l ∧ x ∉ seen := by
  induction l generalizing seen with
  | nil => simp [jsSetDedup]
  | cons a rest ih =>
    by_cases ha : a ∈ seen
    · by_cases hxa : x = a
      · subst hxa
        simp [jsSetDedup, ha, ih]
      · simp [jsSetDedup, ha, ih, hxa]
    · by_cases hxa : x = a
      · subst hxa
        simp [jsSetDedup, ha, ih]
      · simp [jsSetDedup, ha, ih, hxa]

theorem mem_removeAll (y x : String) (l : List String) :
    y ∈ removeAll x l ↔ y ∈ l ∧ y ≠ x := by
  induction l with
  | nil => simp [removeAll]
  | cons a rest ih =>
    by_cases hax : a = x
    · subst hax
      simp [removeAll, ih]
      tauto
    · by_cases hya : y = a
      · subst hya
        simp [removeAll, hax, ih]
      · simp [removeAll, hax, ih, hya]

theorem mapLookup_mapInsert {α : Type} (k x : String) (v : α) (m : List (String × α)) :
    mapLookup k (mapInsert x v m) = if k = x then some v else mapLookup k m := by
  induction m with
  | nil => simp [mapInsert, mapLookup]
  | cons p rest ih =>
    obtain ⟨k2, v2⟩ := p
    by_cases h2 : k2 = x
    · subst h2
      by_cases hk : k = k2 <;> simp [mapInsert, mapLookup, hk]
    · by_cases hk : k = k2
      · subst hk
        simp [mapInsert, mapLookup, h2]
      · simp [mapInsert, mapLookup, h2, hk, ih]

theorem mapLookup_mapErase {α : Type} (k x : String) (m : List (String × α)) :
    mapLookup k (mapErase x m) = if k = x then none else mapLookup k m := by
  induction m with
  | nil => simp [mapErase, mapLookup]
  | cons p rest ih =>
    obtain ⟨k2, v2⟩ := p
    by_cases h2 : k2 = x
    · subst h2
      by_cases hk : k = k2
      · subst hk
        simp [mapErase, mapLookup, ih]
      · simp [mapErase, mapLookup, hk, ih]
    · by_cases hk : k = k2
      · subst hk
        simp [mapErase, mapLookup, h2, ih]
      · simp [mapErase, mapLookup, h2, hk, ih]

theorem mem_mapInsert {α : Type} {p : String × α} {x : String} {v : α}
    {m : List (String × α)} (h : p ∈ mapInsert x v m) : p.1 = x ∨ p ∈ m := by
  induction m with
  | nil =>
    simp [mapInsert] at h
    exact Or.inl (by simp [h])
  | cons q rest ih =>
    obtain ⟨k2, v2⟩ := q
    by_cases h2 : k2 = x
    · simp only [mapInsert, if_pos h2, List.mem_cons] at h
      rcases h with h | h
      · exact Or.inl (by simp [h])
      · exact Or.inr (List.mem_cons_of_mem _ h)
    · simp only [mapInsert, if_neg h2, List.mem_cons] at h
      rcases h with h | h
      · exact Or.inr (by simp [h])
      · rcases ih h with h1 | h1
        · exact Or.inl h1
        · exact Or.inr (List.mem_cons_of_mem _ h1)

theorem mem_mapErase {α : Type} {p : String × α} {x : String}
    {m : List (String × α)} (h : p ∈ mapErase x m) : p ∈ m ∧ p.1 ≠ x := by
  induction m with
  | nil => simp [mapErase] at h
  | cons q rest ih =>
    obtain ⟨k2, v2⟩ := q
    by_cases h2 : k2 = x
    · simp only [mapErase, if_pos h2] at h
      obtain ⟨h1, h3⟩ := ih h
      exact ⟨List.mem_cons_of_mem _ h1, h3⟩
    · simp only [mapErase, if_neg h2, List.mem_cons] at h
      rcases h with h | h
      · refine ⟨by simp [h], ?_⟩
        rw [h]
        exact h2
      · obtain ⟨h1, h3⟩ := ih h
        exact ⟨List.mem_cons_of_mem _ h1, h3⟩

theorem updateWatchlistUI_watchlist {α : Type} (allE : List (String × α))
    (s : WatchState α) : (updateWatchlistUI allE s).watchlist = s.watchlist := by
  unfold updateWatchlistUI
  split <;> rfl

theorem mem_refreshSnapshots {α : Type} {p : String × α}
    (allE : List (String × α)) (slugs : List String) (M : List (String × α))
    (h : p ∈ refreshSnapshots allE slugs M) : p ∈ M ∨ p.1 ∈ slugs := by
  induction slugs generalizing M with
  | nil => exact Or.inl h
  | cons slug rest ih =>
    rw [refreshSnapshots] at h
    cases hf : mapLookup slug allE with
    | some fresh =>
      rw [hf] at h
      rcases ih _ h with h1 | h1
      · rcases mem_mapInsert h1 with h2 | h2
        · exact Or.inr (by simp [h2])
        · exact Or.inl h2
      · exact Or.inr (List.mem_cons_of_mem _ h1)
    | none =>
      rw [hf] at h
      rcases ih _ h with h1 | h1
      · exact Or.inl h1
      · exact Or.inr (List.mem_cons_of_mem _ h1)

theorem WInv_updateWatchlistUI {α : Type} (allE : List (String × α))
    (s : WatchState α) (h : WInv s) : WInv (updateWatchlistUI allE s) := by
  unfold updateWatchlistUI
  split
  · exact h
  · intro p hp
    rcases mem_refreshSnapshots allE s.watchlist s.events hp with h1 | h1
    · exact h p h1
    · exact h1

theorem toggle_twice_member {α : Type} (uid : Option String) (x : String)
    (e : α) (s : WatchState α) (hx : x ∈ s.watchlist) :
    (toggleWatchlist uid x e ((toggleWatchlist uid x e s).1)).1
      = ⟨removeAll x s.watchlist ++ [x], mapInsert x e (mapErase x s.events)⟩ := by
  have h1 : (toggleWatchlist uid x e s).1
      = ⟨removeAll x s.watchlist, mapErase x s.events⟩ := by
    simp [toggleWatchlist, hx]
  rw [h1]
  have hx1 : x ∉ removeAll x s.watchlist := by simp [mem_removeAll]
  simp [toggleWatchlist, hx1]

theorem toggle_twice_not_member {α : Type} (uid : Option String) (x : String)
    (e : α) (s : WatchState α) (hx : x ∉ s.watchlist) :
    (toggleWatchlist uid x e ((toggleWatchlist uid x e s).1)).1
      = ⟨removeAll x (s.watchlist ++ [x]), mapErase x (mapInsert x e s.events)⟩ := by
  have h1 : (toggleWatchlist uid x e s).1
      = ⟨s.watchlist ++ [x], mapInsert x e s.events⟩ := by
    simp [toggleWatchlist, hx]
  rw [h1]
  have hx1 : x ∈ s.watchlist ++ [x] := by simp
  simp [toggleWatchlist, hx1]

end Popup

end Polydictions

namespace Polydictions

namespace Popup

/-- Claim C2: a reconcile whose remote pull returns a non-empty list R
persists, as a set, exactly the union of the prior local watchlist and R; in
particular no identifier of either side is dropped. -/
theorem reconcile_union_merge {α : Type} (R : List String)
    (allE : List (String × α)) (s : WatchState α) (h : R ≠ []) :
    (syncAndUpdateWatchlist (some R) allE s).watchlist.toFinset
      = s.watchlist.toFinset ∪ R.toFinset := by
  have hlen : 0 < R.length := List.length_pos.mpr h
  ext x
  simp [syncAndUpdateWatchlist, updateWatchlistUI_watchlist, hlen, mem_jsSetDedup]

/-- Witness for C2 at a concrete overlapping pair of lists. -/
theorem reconcile_union_merge_witness :
    (syncAndUpdateWatchlist (some ["b", "c"]) ([] : List (String × Nat))
        ⟨["a", "b"], []⟩).watchlist.toFinset
      = (["a", "b"] : List String).toFinset ∪ (["b", "c"] : List String).toFinset :=
  reconcile_union_merge ["b", "c"] [] ⟨["a", "b"], []⟩ (by decide)

/-- Claim C9: reconciling twice with the same remote outcome and the same
fresh batch leaves the same local watchlist set as reconciling once. -/
theorem reconcile_idempotent {α : Type} (remote : Option (List String))
    (allE : List (String × α)) (s : WatchState α) :
    (syncAndUpdateWatchlist remote allE (syncAndUpdateWatchlist remote allE s)).watchlist.toFinset
      = (syncAndUpdateWatchlist remote allE s).watchlist.toFinset := by
  cases remote with
  | none => simp [syncAndUpdateWatchlist, updateWatchlistUI_watchlist]
  | some bot =>
    by_cases hlen : 0 < bot.length
    · ext x
      simp [syncAndUpdateWatchlist, updateWatchlistUI_watchlist, hlen, mem_jsSetDedup]
    · simp [syncAndUpdateWatchlist, updateWatchlistUI_watchlist, hlen]

/-- Counterexample for C5: on a state whose snapshot mapping lacks the entry
of a watched slug, toggling that slug twice does not restore the mapping: the
second toggle leaves behind a snapshot entry absent before. -/
theorem toggle_toggle_counterexample :
    ¬ (mapLookup "a"
        ((toggleWatchlist none "a" (0 : Nat)
            ((toggleWatchlist none "a" (0 : Nat) ⟨["a"], []⟩).1)).1).events
      = mapLookup "a" ((⟨["a"], []⟩ : WatchState Nat).events)) := by decide

/-- Claim C5 as amended: toggling a slug twice with the same snapshot always
restores membership of the watchlist set, on every state; it restores the
snapshot mapping provided the mapping entry of the slug agreed with its
membership beforehand: the mapping held exactly that snapshot when the slug
was watched, and held no entry when it was not. -/
theorem toggle_toggle_inverse {α : Type} (uid : Option String) (x : String)
    (e : α) (s : WatchState α) :
    (∀ y, y ∈ ((toggleWatchlist uid x e ((toggleWatchlist uid x e s).1)).1).watchlist
        ↔ y ∈ s.watchlist)
  ∧ ((x ∈ s.watchlist ∧ mapLookup x s.events = some e)
       ∨ (x ∉ s.watchlist ∧ mapLookup x s.events = none) →
      ∀ k, mapLookup k ((toggleWatchlist uid x e ((toggleWatchlist uid x e s).1)).1).events
        = mapLookup k s.events) := by
  constructor
  · intro y
    by_cases hx : x ∈ s.watchlist
    · rw [toggle_twice_member uid x e s hx]
      by_cases hyx : y = x
      · subst hyx
        simp [mem_removeAll, hx]
      · simp [mem_removeAll, hyx]
    · rw [toggle_twice_not_member uid x e s hx]
      by_cases hyx : y = x
      · subst hyx
        simp [mem_removeAll, hx]
      · simp [mem_removeAll, hyx]
  · rintro (⟨hx, hl⟩ | ⟨hx, hl⟩) k
    · rw [toggle_twice_member uid x e s hx]
      show mapLookup k (mapInsert x e (mapErase x s.events)) = mapLookup k s.events
      rw [mapLookup_mapInsert, mapLookup_mapErase]
      by_cases hk : k = x
      · subst hk
        simp [hl]
      · simp [hk]
    · rw [toggle_twice_not_member uid x e s hx]
      show mapLookup k (mapErase x (mapInsert x e s.events)) = mapLookup k s.events
      rw [mapLookup_mapErase]
      by_cases hk : k = x
      · subst hk
        simp [hl]
      · rw [mapLookup_mapInsert]
        simp [hk]

/-- Witness for the amended C5: the mapping part on a consistent concrete
state, and the unconditional membership part on the inconsistent state of the
counterexample. -/
theorem toggle_toggle_inverse_witness :
    (mapLookup "a"
        ((toggleWatchlist none "a" (0 : Nat)
            ((toggleWatchlist none "a" (0 : Nat) ⟨["a"], [("a", 0)]⟩).1)).1).events
      = mapLookup "a" ((⟨["a"], [("a", 0)]⟩ : WatchState Nat).events))
  ∧ ("a" ∈ ((toggleWatchlist none "a" (0 : Nat)
        ((toggleWatchlist none "a" (0 : Nat) ⟨["a"], []⟩).1)).1).watchlist
      ↔ "a" ∈ ((⟨["a"], []⟩ : WatchState Nat)).watchlist) :=
  ⟨(toggle_toggle_inverse none "a" 0 ⟨["a"], [("a", 0)]⟩).2
     (Or.inl ⟨by decide, by decide⟩) "a",
   (toggle_toggle_inverse none "a" 0 ⟨["a"], []⟩).1 "a"⟩

/-- Claim C10: with the subscriber identity unset, toggle and clear attempt no
remote call; toggle, clear and a reconcile whose pull failed preserve the
consistency of the local store (every snapshot key is a watched slug); a
failed reconcile leaves the watchlist unchanged, its final display refresh
touching at most the snapshot entries of watched slugs; the local outcome of
toggle does not depend on the subscriber identity. All the modelled
operations are total functions, so none of them raises to its caller. -/
theorem remote_unavailable_degradation {α : Type} (u x : String) (e : α)
    (allE : List (String × α)) (s : WatchState α) (h : WInv s) :
    (WInv (toggleWatchlist none x e s).1 ∧ (toggleWatchlist none x e s).2 = [])
  ∧ (WInv (clearWatchlist α none).1 ∧ (clearWatchlist α none).2 = [])
  ∧ ((syncAndUpdateWatchlist none allE s).watchlist = s.watchlist
      ∧ WInv (syncAndUpdateWatchlist none allE s))
  ∧ (toggleWatchlist (some u) x e s).1 = (toggleWatchlist none x e s).1 := by
  refine ⟨⟨?_, ?_⟩, ⟨?_, ?_⟩,
    ⟨updateWatchlistUI_watchlist allE s, WInv_updateWatchlistUI allE s h⟩, ?_⟩
  · by_cases hx : x ∈ s.watchlist
    · simp only [toggleWatchlist, if_pos hx]
      intro p hp
      obtain ⟨hpm, hpx⟩ := mem_mapErase hp
      exact (mem_removeAll _ _ _).mpr ⟨h p hpm, hpx⟩
    · simp only [toggleWatchlist, if_neg hx]
      intro p hp
      rcases mem_mapInsert hp with h1 | h1
      · simp [h1]
      · simp [h p h1]
  · by_cases hx : x ∈ s.watchlist <;> simp [toggleWatchlist, hx, syncWatchlistToBot]
  · intro p hp
    simp [clearWatchlist] at hp
  · simp [clearWatchlist, syncWatchlistToBot]
  · by_cases hx : x ∈ s.watchlist <;> simp [toggleWatchlist, hx]

/-- Witness for C10 on a concrete consistent state. -/
theorem remote_unavailable_degradation_witness :
    (toggleWatchlist none "b" (1 : Nat) ⟨["a"], [("a", 0)]⟩).2 = []
  ∧ WInv (toggleWatchlist none "b" (1 : Nat)
        (⟨["a"], [("a", 0)]⟩ : WatchState Nat)).1 :=
  ⟨(remote_unavailable_degradation "u" "b" 1 [] ⟨["a"], [("a", 0)]⟩ (by decide)).1.2,
   (remote_unavailable_degradation "u" "b" 1 [] ⟨["a"], [("a", 0)]⟩ (by decide)).1.1⟩

end Popup

end Polydictions
